import Mathlib

/-!
Verification of the settings data model and HTML document generator of
`vkconfig_core/doc.cpp` (VulkanTools). The C++ source dispatches on a
setting-type tag and downcasts to a per-type metadata/data class; the
embedding fuses the tag and the payload into one inductive per side, so
the tag is the payload's constructor and every downcast in the source
becomes a total pattern match. Machinery that lives outside `doc.cpp`
(token tables, `Version`, `FindSettingMeta`, `SettingMetaSet` sizing) is
modelled from the specification and marked as such in its doc comment.
-/

/-- Setting type taxonomy (`SETTING_*` enum). -/
inductive SettingType where
| GROUP
| LOAD_FILE
| SAVE_FILE
| SAVE_FOLDER
| STRING
| FRAMES
| INT
| FLOAT
| BOOL_NUMERIC_DEPRECATED
| BOOL
| LIST
| ENUM
| FLAGS
deriving DecidableEq, Repr

/-- Setting view tiers (`SETTING_VIEW_*` enum): standard / advanced / hidden. -/
inductive SettingView where
| STANDARD
| ADVANCED
| HIDDEN
deriving DecidableEq, Repr

/-- Layer / setting status (`STATUS_*` enum). -/
inductive StatusType where
| STABLE
| BETA
| ALPHA
| DEPRECATED
deriving DecidableEq, Repr

/-- Modelled from the spec: the list-setting entry type (the C++
`EnabledNumberOrString` header is not in the excerpt). An entry has a
string `key`, a numeric fallback `number`, and an `enabled` flag; numbers
are modelled as integers. -/
structure ListEntry where
  key : String
  number : Int
  enabled : Bool
deriving DecidableEq, Repr

/-- `SettingEnumValue {key, label, description, view}` of an enumeration
metadata node. -/
structure SettingEnumValue where
  key : String
  label : String
  description : String
  view : SettingView
deriving DecidableEq, Repr

/-- Per-type payload of a setting-metadata node: one constructor per
`SETTING_*` tag, carrying the fields the corresponding C++ subclass
(`SettingMetaBool`, `SettingMetaFloat`, ...) contributes. Float values
are modelled as integers with an explicit fixed-decimals format field
and a validity range, since the float metadata header is not in the
excerpt (modelled from the spec: per-setting format spec and
range-validity check). -/
inductive SettingMetaPayload where
| group
| loadFile (default_value : String)
| saveFile (default_value : String)
| saveFolder (default_value : String)
| str (default_value : String)
| frames (default_value : String)
| intM (default_value : Int)
| floatM (default_value : Int) (min_value : Int) (max_value : Int) (decimals : Nat)
| boolNumericM (default_value : Bool)
| boolM (default_value : Bool)
| listM (default_value : List ListEntry)
| enumM (default_value : String) (enum_values : List SettingEnumValue)
| flagsM (default_value : List String)
deriving DecidableEq, Repr

/-- The `SETTING_*` tag of a metadata payload. -/
def SettingMetaPayload.type : SettingMetaPayload → SettingType
| .group => .GROUP
| .loadFile _ => .LOAD_FILE
| .saveFile _ => .SAVE_FILE
| .saveFolder _ => .SAVE_FOLDER
| .str _ => .STRING
| .frames _ => .FRAMES
| .intM _ => .INT
| .floatM _ _ _ _ => .FLOAT
| .boolNumericM _ => .BOOL_NUMERIC_DEPRECATED
| .boolM _ => .BOOL
| .listM _ => .LIST
| .enumM _ _ => .ENUM
| .flagsM _ => .FLAGS

/-- `SettingMeta`: common header fields plus the typed payload plus the
ordered children list (recursive tree node). -/
inductive SettingMeta where
| mk : (key : String) → (label : String) → (description : String) →
    (env : String) → (payload : SettingMetaPayload) → (view : SettingView) →
    (status : StatusType) → (platform_flags : Nat) →
    (children : List SettingMeta) → SettingMeta
deriving Repr

def SettingMeta.key : SettingMeta → String
| .mk k _ _ _ _ _ _ _ _ => k

def SettingMeta.label : SettingMeta → String
| .mk _ l _ _ _ _ _ _ _ => l

def SettingMeta.description : SettingMeta → String
| .mk _ _ d _ _ _ _ _ _ => d

def SettingMeta.env : SettingMeta → String
| .mk _ _ _ e _ _ _ _ _ => e

def SettingMeta.payload : SettingMeta → SettingMetaPayload
| .mk _ _ _ _ p _ _ _ _ => p

def SettingMeta.view : SettingMeta → SettingView
| .mk _ _ _ _ _ v _ _ _ => v

def SettingMeta.status : SettingMeta → StatusType
| .mk _ _ _ _ _ _ s _ _ => s

def SettingMeta.platform_flags : SettingMeta → Nat
| .mk _ _ _ _ _ _ _ f _ => f

def SettingMeta.children : SettingMeta → List SettingMeta
| .mk _ _ _ _ _ _ _ _ c => c

/-- `meta.type` in the source: the tag of the node's payload. -/
def SettingMeta.type (m : SettingMeta) : SettingType := m.payload.type

/-- Per-type payload of a setting-data value, one constructor per
`SETTING_*` tag, mirroring the C++ data classes (`SettingDataBool`,
`SettingDataFloat`, ...). -/
inductive SettingDataPayload where
| group
| loadFile (value : String)
| saveFile (value : String)
| saveFolder (value : String)
| str (value : String)
| frames (value : String)
| intD (value : Int)
| floatD (value : Int)
| boolNumericD (value : Bool)
| boolD (value : Bool)
| listD (value : List ListEntry)
| enumD (value : String)
| flagsD (value : List String)
deriving DecidableEq, Repr

/-- The `SETTING_*` tag of a data payload. -/
def SettingDataPayload.type : SettingDataPayload → SettingType
| .group => .GROUP
| .loadFile _ => .LOAD_FILE
| .saveFile _ => .SAVE_FILE
| .saveFolder _ => .SAVE_FOLDER
| .str _ => .STRING
| .frames _ => .FRAMES
| .intD _ => .INT
| .floatD _ => .FLOAT
| .boolNumericD _ => .BOOL_NUMERIC_DEPRECATED
| .boolD _ => .BOOL
| .listD _ => .LIST
| .enumD _ => .ENUM
| .flagsD _ => .FLAGS

/-- `SettingData`: a keyed current value. -/
structure SettingData where
  key : String
  payload : SettingDataPayload
deriving DecidableEq, Repr

/-- `data.type` in the source. -/
def SettingData.type (d : SettingData) : SettingType := d.payload.type

/-- Modelled from the spec: the `Version` triple (the `version.h` header
is not in the excerpt); ordering is lexicographic on
(major, minor, patch). -/
structure Version where
  major : Nat
  minor : Nat
  patch : Nat
deriving DecidableEq, Repr

/-- Modelled from the spec: strict lexicographic version order used by
`layer.api_version > Version(1, 7, 176)`. -/
def Version.lt (a b : Version) : Bool :=
  a.major < b.major ||
  (a.major = b.major && (a.minor < b.minor ||
    (a.minor = b.minor && a.patch < b.patch)))

/-- Modelled from the spec: `Version::str()`, dotted decimal rendering. -/
def Version.str (v : Version) : String :=
  toString v.major ++ "." ++ toString v.minor ++ "." ++ toString v.patch

/-- `LayerPreset {label, description, settings}`. -/
structure LayerPreset where
  label : String
  description : String
  settings : List SettingData
deriving Repr

/-- The `Layer` aggregate. `settings` is the root `SettingMetaSet`,
modelled as the ordered list of top-level metadata nodes (the set header
is not in the excerpt; `Size()`/`Empty()`/indexing in `doc.cpp` iterate
the top level only, with explicit recursion into `children`). -/
structure Layer where
  key : String
  url : String
  description : String
  introduction : String
  api_version : Version
  implementation_version : String
  file_format_version : Version
  manifest_path : String
  binary_path : String
  platforms : Nat
  status : StatusType
  settings : List SettingMeta
  presets : List LayerPreset
deriving Repr

/-- Modelled from the spec: the canonical platform table behind
`GetPlatformTokens` — a fixed bit order paired with human-readable
platform names (the platform header is not in the excerpt). -/
def platformTable : List (Nat × String) :=
  [(1, "WINDOWS"), (2, "LINUX"), (4, "MACOS"), (8, "ANDROID")]

/-- Modelled from the spec: `GetPlatformTokens(mask)` — the names of the
set bits of the mask, in the canonical table order. -/
def GetPlatformTokens (mask : Nat) : List String :=
  platformTable.filterMap (fun p => if mask &&& p.1 ≠ 0 then some p.2 else none)

/-- Modelled from the spec: `GetToken(status)`, a pure status-token map. -/
def GetToken : StatusType → String
| .STABLE => "STABLE"
| .BETA => "BETA"
| .ALPHA => "ALPHA"
| .DEPRECATED => "DEPRECATED"

/-- Modelled from the spec: `GetSettingTypeToken(type)`, a pure
type-token map. -/
def GetSettingTypeToken : SettingType → String
| .GROUP => "GROUP"
| .LOAD_FILE => "LOAD_FILE"
| .SAVE_FILE => "SAVE_FILE"
| .SAVE_FOLDER => "SAVE_FOLDER"
| .STRING => "STRING"
| .FRAMES => "FRAMES"
| .INT => "INT"
| .FLOAT => "FLOAT"
| .BOOL_NUMERIC_DEPRECATED => "BOOL_NUMERIC_DEPRECATED"
| .BOOL => "BOOL"
| .LIST => "LIST"
| .ENUM => "ENUM"
| .FLAGS => "FLAGS"

/-- Modelled from the spec: `GetSettingViewToken(view)`, a pure
view-token map. -/
def GetSettingViewToken : SettingView → String
| .STANDARD => "STANDARD"
| .ADVANCED => "ADVANCED"
| .HIDDEN => "HIDDEN"

/-- Modelled from the spec: `GetLayerSettingPrefix(layer_key)` — a pure
mapping from the layer key to the settings-file variable prefix. -/
def layerSettingVarPrefix (layer_key : String) : String :=
  layer_key ++ "."

/-- Modelled from the spec: `IsEnum(type)` — the sub-table of enum
values is emitted for enum-typed settings only. -/
def IsEnum (t : SettingType) : Bool := t = SettingType.ENUM

/-- Modelled from the spec: `FindSettingMeta(settings, key)` — keyed
lookup resolving a setting-data key against the layer's meta tree
(depth-first, children before later siblings). -/
def FindSettingMeta : List SettingMeta → String → Option SettingMeta
| [], _ => none
| m :: rest, k =>
  if m.key = k then some m
  else match FindSettingMeta m.children k with
       | some r => some r
       | none => FindSettingMeta rest k
termination_by l _ => sizeOf l
decreasing_by
all_goals cases m
all_goals simp [SettingMeta.children]
all_goals omega

/-- `FindSettingMeta<SettingMetaFloat>`: the typed lookup used by the
FLOAT branch of `GetProcessedValue`; in C++ a found node of the wrong
class is downcast garbage (undefined behaviour), modelled as `none`. -/
def FindSettingMetaFloat (settings : List SettingMeta) (k : String) :
    Option (Int × Int × Int × Nat) :=
  match FindSettingMeta settings k with
  | some m =>
    match m.payload with
    | .floatM d lo hi dec => some (d, lo, hi, dec)
    | _ => none
  | none => none

/-- Modelled from the spec: fixed-decimal-places rendering used as the
float metadata's `GetFloatFormat` format spec (float values are modelled
as integers; the claims depend only on both formatting paths sharing the
metadata's spec, not on decimal mechanics). -/
def formatFloat (decimals : Nat) (v : Int) : String :=
  toString v ++ (if decimals = 0 then "" else "." ++ String.mk (List.replicate decimals '0'))

/-- Modelled from the spec: `meta->IsValid(data)` for a float setting —
the range-validity check of the data value against the metadata. -/
def floatIsValid (min_value max_value v : Int) : Bool :=
  min_value ≤ v && v ≤ max_value

/-- Rendering of one enabled list entry (`doc.cpp:65-69` / `147-151`):
the key when non-empty, otherwise the numeric fallback field. -/
def renderListEntry (e : ListEntry) : String :=
  if e.key = "" then toString e.number else e.key

/-- The indexed LIST loop of `doc.cpp:59-70` and `doc.cpp:141-152`,
starting from index `i`: disabled entries are skipped; a comma is
prepended whenever the raw index is nonzero. -/
def processListEntriesFrom : Nat → List ListEntry → String
| _, [] => ""
| i, e :: rest =>
  (if e.enabled then (if i ≠ 0 then "," else "") ++ renderListEntry e else "")
    ++ processListEntriesFrom (i + 1) rest

/-- The LIST formatting loop run from index 0. -/
def processListEntries (entries : List ListEntry) : String :=
  processListEntriesFrom 0 entries

/-- The FLAGS join loop of `doc.cpp:82-87` and `doc.cpp:161-166`: every
token emitted, comma after each non-final raw index. -/
def flagsJoin : List String → String
| [] => ""
| [x] => x
| x :: y :: rest => x ++ "," ++ flagsJoin (y :: rest)

/-- `GetProcessedDefaultValue(meta)` (`doc.cpp:25-96`): canonical text of
a metadata default value, dispatching on the setting type. -/
def GetProcessedDefaultValue (m : SettingMeta) : String :=
  match m.payload with
  | .group => ""
  | .loadFile d => d
  | .saveFile d => d
  | .saveFolder d => d
  | .str d => d
  | .frames d => d
  | .intM d => toString d
  | .floatM d _ _ dec => formatFloat dec d
  | .boolNumericM d => if d then "1" else "0"
  | .boolM d => if d then "TRUE" else "FALSE"
  | .listM d => processListEntries d
  | .enumM d _ => d
  | .flagsM d => flagsJoin d

/-- `GetProcessedValue(layer, data)` (`doc.cpp:98-175`): canonical text
of a data value. The FLOAT branch dereferences
`FindSettingMeta<SettingMetaFloat>(layer.settings, data.key)` with no
null check; the failed lookup (a null/garbage dereference in C++) is
modelled as `none`, every defined path as `some`. -/
def GetProcessedValue (layer : Layer) (data : SettingData) : Option String :=
  match data.payload with
  | .group => some ""
  | .loadFile v => some v
  | .saveFile v => some v
  | .saveFolder v => some v
  | .frames v => some v
  | .str v => some v
  | .enumD v => some v
  | .intD v => some (toString v)
  | .floatD v =>
    match FindSettingMetaFloat layer.settings data.key with
    | some (d, lo, hi, dec) =>
      if floatIsValid lo hi v then some (formatFloat dec v)
      else some (formatFloat dec d)
    | none => none
  | .boolNumericD v => some (if v then "1" else "0")
  | .boolD v => some (if v then "TRUE" else "FALSE")
  | .listD v => some (processListEntries v)
  | .flagsD v => some (flagsJoin v)

/-- The span-wrapping join of `BuildPlatformsHTML` (`doc.cpp:177-189`):
each platform token wrapped in a code span, `", "` after each non-final
index. -/
def buildPlatformsJoin : List String → String
| [] => ""
| [x] => "<span class=\"code\">" ++ (x ++ "</ span>")
| x :: y :: rest =>
  "<span class=\"code\">" ++ (x ++ "</ span>") ++ ", " ++ buildPlatformsJoin (y :: rest)

/-- `BuildPlatformsHTML(platform_flags)` (`doc.cpp:177-189`). -/
def BuildPlatformsHTML (platform_flags : Nat) : String :=
  buildPlatformsJoin (GetPlatformTokens platform_flags)

/-- `GetLayerSettingsDocURL(layer)` (`doc.cpp:217-224`). -/
def GetLayerSettingsDocURL (layer : Layer) : String :=
  if Version.lt ⟨1, 7, 176⟩ layer.api_version then
    "https://github.com/LunarG/VulkanTools/tree/sdk-" ++
      (layer.api_version.str ++ ".0/vkconfig#vulkan-layers-settings")
  else
    "https://github.com/LunarG/VulkanTools/tree/master/vkconfig#vulkan-layers-settings"

/-- Concatenation of emitted pieces in order (`text +=` accumulation). -/
def strConcat : List String → String
| [] => ""
| s :: rest => s ++ strConcat rest

/-- One overview-table row (`doc.cpp:194-210`), for a setting that passed
the non-group, non-hidden filter. -/
def overviewRow (layer : Layer) (s : SettingMeta) : String :=
  "<tr>\n"
  ++ ("\t<td><a id=\"" ++ (s.key ++ ("\"href=\"#" ++ (s.key ++ ("-detailed\">" ++ (s.label ++ "</a></td>\n"))))))
  ++ ("\t<td><span class=\"code\">" ++ (GetSettingTypeToken s.type ++ "</span></td>\n"))
  ++ ("\t<td><span class=\"code\">" ++ (GetProcessedDefaultValue s ++ "</span></td>\n"))
  ++ ("\t<td><span class=\"code\">" ++ ((layerSettingVarPrefix layer.key ++ s.key) ++ "</span></td>\n"))
  ++ (if s.env = "" then "\t<td>N/A</td>\n"
      else "\t<td><span class=\"code\">" ++ (s.env ++ "</span></td>\n"))
  ++ ("\t<td>" ++ (BuildPlatformsHTML s.platform_flags ++ "</td>\n"))
  ++ "</tr>\n"

/-- Whether the traversal emits a node: not a GROUP and not hidden
(`doc.cpp:193` and `doc.cpp:228`). -/
def emittedSetting (s : SettingMeta) : Bool :=
  s.type ≠ SettingType.GROUP && s.view ≠ SettingView.HIDDEN

/-- `WriteSettingsOverview` (`doc.cpp:191-215`): per top-level node, the
filtered row, then the recursion into the node's children, then the rest
of the list. -/
def WriteSettingsOverview (layer : Layer) : List SettingMeta → String
| [] => ""
| s :: rest =>
  (if emittedSetting s then overviewRow layer s else "")
  ++ WriteSettingsOverview layer s.children ++ WriteSettingsOverview layer rest
termination_by l => sizeOf l
decreasing_by
all_goals cases s
all_goals simp [SettingMeta.children]
all_goals omega

/-- One enum-value row of the detailed sub-table (`doc.cpp:273-282`),
with "N/A" for an empty description; the platforms cell uses the
*setting's* platform flags. -/
def enumValueRow (s : SettingMeta) (v : SettingEnumValue) : String :=
  "<tr>\n"
  ++ ("\t<td>" ++ (v.key ++ "</td>\n"))
  ++ ("\t<td>" ++ (v.label ++ "</td>\n"))
  ++ (if v.description = "" then "\t<td>N/A</td>\n"
      else "\t<td class=\"desc\">" ++ (v.description ++ "</td>\n"))
  ++ ("\t<td>" ++ (BuildPlatformsHTML s.platform_flags ++ "</td>\n"))
  ++ "</tr>\n"

/-- The enum-value loop of `doc.cpp:268-283`: entries whose view is
hidden are skipped. -/
def enumValueRows (s : SettingMeta) : List SettingEnumValue → String
| [] => ""
| v :: rest =>
  (if v.view = SettingView.HIDDEN then "" else enumValueRow s v) ++ enumValueRows s rest

/-- The enum sub-table of `doc.cpp:263-284` (header, filtered rows,
footer). -/
def enumValueTable (s : SettingMeta) (vs : List SettingEnumValue) : String :=
  "<table>\n"
  ++ "<thead><tr><th>Enum Value</th><th>Label</th><th class=\"desc\">Description</th><th>Platforms Supported</th></tr></thead>\n"
  ++ "<tbody>\n"
  ++ enumValueRows s vs
  ++ "</tbody></table>\n"

/-- The unconditional part of a detailed section (`doc.cpp:229-258`):
status-annotated heading, description, properties list and type/default
line. -/
def detailBlockCommon (layer : Layer) (s : SettingMeta) : String :=
  (if s.status = StatusType.STABLE then
    "<h3><a id=\"" ++ (s.key ++ ("-detailed\" href=\"#" ++ (s.key ++ ("\">" ++ (s.label ++ "</a></h3>\n")))))
   else
    "<h3><a id=\"" ++ (s.key ++ ("-detailed\" href=\"#" ++ (s.key ++ ("\">" ++ (s.label ++ ("</a> (" ++ (GetToken s.status ++ ")</h3>\n"))))))))
  ++ ("\t<p>" ++ (s.description ++ "</p>\n"))
  ++ "<h4>Setting Properties:</h4>\n"
  ++ "<ul>\n"
  ++ ("\t<li><a href=\"" ++ (GetLayerSettingsDocURL layer ++ ("\">vk_layer_settings.txt</a> Variable: <span class=\"code\">" ++ ((layerSettingVarPrefix layer.key ++ s.key) ++ "</span></li>\n"))))
  ++ (if s.env = "" then "\t<li>Environment Variable: <span class=\"code\">N/A</span></li>\n"
      else "\t<li>Environment Variable: <span class=\"code\">" ++ (s.env ++ "</span></li>\n"))
  ++ ("\t<li>Platforms Supported: " ++ (BuildPlatformsHTML s.platform_flags ++ "</li>\n"))
  ++ (if s.view ≠ SettingView.STANDARD then
        "\t<li>Setting Level: " ++ (GetSettingViewToken s.view ++ "</li>\n")
      else "")
  ++ "</ul>\n"
  ++ ("\t<p>Setting Type: <span class=\"code\">" ++ (GetSettingTypeToken s.type ++ ("</span> - Setting Default Value: <span class=\"code\">" ++ (GetProcessedDefaultValue s ++ "</span></p>\n"))))

/-- The enum sub-table part of a detailed section, emitted behind the
`IsEnum` guard (`doc.cpp:260-285`). -/
def detailEnumPart (s : SettingMeta) : String :=
  if IsEnum s.type then
    match s.payload with
    | .enumM _ vs => enumValueTable s vs
    | _ => ""
  else ""

/-- One detailed section for an emitted setting (`doc.cpp:229-285`). -/
def detailBlock (layer : Layer) (s : SettingMeta) : String :=
  detailBlockCommon layer s ++ detailEnumPart s

/-- `WriteSettingsDetails` (`doc.cpp:226-290`): same traversal and
filter as the overview, emitting detailed sections. -/
def WriteSettingsDetails (layer : Layer) : List SettingMeta → String
| [] => ""
| s :: rest =>
  (if emittedSetting s then detailBlock layer s else "")
  ++ WriteSettingsDetails layer s.children ++ WriteSettingsDetails layer rest
termination_by l => sizeOf l
decreasing_by
all_goals cases s
all_goals simp [SettingMeta.children]
all_goals omega

/-- One preset entry line (`doc.cpp:383-387`): the meta found for the
data key supplies anchor and label, the data-variant formatter the
value; a failed lookup (null dereference in C++) is `none`. -/
def presetEntryLine (layer : Layer) (d : SettingData) : Option String :=
  match FindSettingMeta layer.settings d.key with
  | some m =>
    match GetProcessedValue layer d with
    | some v => some ("\t<li><a href=\"#" ++ (m.key ++ ("-detailed\">" ++ (m.label ++ ("</a>: <span class=\"code\">" ++ (v ++ "</span></li>\n"))))))
    | none => none
  | none => none

/-- The inner preset-settings loop of `doc.cpp:382-388`. -/
def presetEntryLines (layer : Layer) : List SettingData → Option String
| [] => some ""
| d :: rest =>
  match presetEntryLine layer d with
  | some line =>
    match presetEntryLines layer rest with
    | some t => some (line ++ t)
    | none => none
  | none => none

/-- One preset section (`doc.cpp:374-390`). -/
def presetBlock (layer : Layer) (p : LayerPreset) : Option String :=
  match presetEntryLines layer p.settings with
  | some entries =>
    some ("<h3>" ++ (p.label ++ "</h3>\n")
      ++ ("<p>" ++ (p.description ++ "</p>"))
      ++ "<h4>Preset Setting Values:</h4>\n"
      ++ "<ul>\n"
      ++ entries
      ++ "</ul>\n")
  | none => none

/-- The preset loop of `doc.cpp:373-391`. -/
def presetBlocks (layer : Layer) : List LayerPreset → Option String
| [] => some ""
| p :: rest =>
  match presetBlock layer p with
  | some b =>
    match presetBlocks layer rest with
    | some t => some (b ++ t)
    | none => none
  | none => none

/-- Modelled from the spec: `QFileInfo(path).fileName()` — the manifest
path's basename (the component after the last separator). -/
def basenameOf (p : String) : String :=
  String.mk ((p.data.reverse.takeWhile (fun c => c ≠ '/')).reverse)

/-- The document shell and stylesheet pieces (`doc.cpp:295-307`). -/
def exportStylePieces : List String :=
  ["<!DOCTYPE html>\n", "<html>\n", "<head><title></title></head>\n", "<body>\n",
   "<style>\n",
   "\ta \x7bcolor: #A41E22;\x7d\n",
   "\th1 \x7bcolor: #A41E22;\x7d\n",
   "\th2 \x7bcolor: #A41E22;\x7d\n",
   "\ttable \x7bborder: 1px solid; width: 100%; margin-left: auto; margin-right: auto;\x7d\n",
   "\ttd \x7bborder: 1px dotted;\x7d\n",
   "\t.code \x7bcolor: #008000; font-family: consolas; \x7d\n",
   "\t.desc \x7bwidth:50%;\x7d\n",
   "</style>\n"]

/-- The header-block pieces (`doc.cpp:309-327`): layer name (hyperlinked
when a home-page URL is present), non-stable status annotation,
description, introduction. -/
def exportTitlePieces (layer : Layer) : List String :=
  ["<h1 id=\"top\">"]
  ++ [if layer.url = "" then layer.key ++ "\n"
      else "<a href=\"" ++ (layer.url ++ ("\">" ++ (layer.key ++ "</a>\n")))]
  ++ (if layer.status ≠ StatusType.STABLE then [" (" ++ (GetToken layer.status ++ ")")] else [])
  ++ ["</h1>\n"]
  ++ (if layer.description ≠ "" then ["<h3>" ++ (layer.description ++ "</h3>\n")] else [])
  ++ (if layer.introduction ≠ "" then ["<p>" ++ (layer.introduction ++ "</p>\n")] else [])

def apiVersionLine (layer : Layer) : String :=
  "\t<li>API Version: " ++ (layer.api_version.str ++ "</li>\n")

def implementationVersionLine (layer : Layer) : String :=
  "\t<li>Implementation Version: " ++ (layer.implementation_version ++ "</li>\n")

def manifestLine (layer : Layer) : String :=
  "\t<li>Layer Manifest: " ++ (basenameOf layer.manifest_path ++ "<ul>\n")

def fileFormatLine (layer : Layer) : String :=
  "\t\t<li>File Format: " ++ (layer.file_format_version.str ++ "</li>\n")

def binaryPathLine (layer : Layer) : String :=
  "\t\t<li>Layer Binary Path: " ++ (layer.binary_path ++ "</li>\n")

def platformsLine (layer : Layer) : String :=
  "\t<li>Supported Platforms: " ++ (BuildPlatformsHTML layer.platforms ++ "</li>\n")

def statusLine (layer : Layer) : String :=
  "\t<li>Status: " ++ (GetToken layer.status ++ "</li>\n")

def settingsCountLine (layer : Layer) : String :=
  "\t<li><a href=\"#settings\">Number of Layer Settings: " ++ (toString layer.settings.length ++ "</a></li>\n")

def presetsCountLine (layer : Layer) : String :=
  "\t<li><a href=\"#presets\">Number of Layer Presets: " ++ (toString layer.presets.length ++ "</a></li>\n")

/-- The "Layer Properties" list pieces (`doc.cpp:329-349`): the five
manifest-metadata lines unconditionally, then the four conditional
lines (platform bitmask nonzero, non-stable status, nonempty settings,
nonempty presets). -/
def layerPropertiesPieces (layer : Layer) : List String :=
  ["<h2><a href=\"#top\">Layer Properties</a></h2>\n", "<ul>\n",
   apiVersionLine layer, implementationVersionLine layer, manifestLine layer,
   fileFormatLine layer, binaryPathLine layer, "\t</ul></li>\n"]
  ++ (if layer.platforms ≠ 0 then [platformsLine layer] else [])
  ++ (if layer.status ≠ StatusType.STABLE then [statusLine layer] else [])
  ++ (if layer.settings.isEmpty then [] else [settingsCountLine layer])
  ++ (if layer.presets.isEmpty then [] else [presetsCountLine layer])
  ++ ["</ul>\n"]

/-- The home-page pointer piece (`doc.cpp:351-354`). -/
def visitPieces (layer : Layer) : List String :=
  if layer.url ≠ "" then
    ["<p>Visit <a href=\"" ++ (layer.url ++ ("\">" ++ (layer.key ++ " home page</a> for more information.</p>\n")))]
  else []

/-- The settings sections (`doc.cpp:356-369`): overview heading, table
head, overview rows, table foot, details heading, detailed sections —
emitted only when the layer has settings. -/
def settingsSectionPieces (layer : Layer) : List String :=
  if layer.settings.isEmpty then []
  else
    ["<h2><a href=\"#top\" id=\"settings\">Layer Settings Overview</a></h2>\n",
     "<table><thead><tr>",
     "<th>Setting</th><th>Type</th><th>Default Value</th><th><a href=\"" ++ (GetLayerSettingsDocURL layer ++ "\">vk_layer_settings.txt</a> Variable</th><th>Environment Variable</th><th>Supported Platforms</th>"),
     "</tr></thead><tbody>\n",
     WriteSettingsOverview layer layer.settings,
     "</tbody></table>\n",
     "<h2><a href=\"#top\">Layer Settings Details</a></h2>\n",
     WriteSettingsDetails layer layer.settings]

/-- The presets section (`doc.cpp:371-392`), emitted only when the layer
has presets; `none` when a preset entry's meta lookup fails. -/
def presetsSectionPieces (layer : Layer) : Option (List String) :=
  if layer.presets.isEmpty then some []
  else
    match presetBlocks layer layer.presets with
    | some s => some ["<h2><a href=\"#top\" id=\"presets\">Layer Presets</a></h2>\n", s]
    | none => none

/-- The full document of `ExportHtmlDoc` (`doc.cpp:292-402`) as the
ordered list of appended pieces; the file write is an external
collaborator and not modelled. `none` when preset rendering dereferences
a failed meta lookup. -/
def ExportHtmlPieces (layer : Layer) : Option (List String) :=
  match presetsSectionPieces layer with
  | some pp =>
    some (exportStylePieces ++ exportTitlePieces layer ++ layerPropertiesPieces layer
      ++ visitPieces layer ++ settingsSectionPieces layer ++ pp
      ++ ["</body>\n", "</html>\n"])
  | none => none

/-- The document text: the concatenation of the emitted pieces. -/
def ExportHtmlText (layer : Layer) : Option String :=
  match ExportHtmlPieces layer with
  | some ps => some (strConcat ps)
  | none => none

/-- The flattened node list of a metadata forest in traversal order:
every node, then its descendants, then its later siblings. -/
def flattenAll : List SettingMeta → List SettingMeta
| [] => []
| s :: rest => s :: (flattenAll s.children ++ flattenAll rest)
termination_by l => sizeOf l
decreasing_by
all_goals cases s
all_goals simp [SettingMeta.children]
all_goals omega

theorem strConcat_append (a b : List String) :
    strConcat (a ++ b) = strConcat a ++ strConcat b := by
  induction a with
  | nil => simp [strConcat]
  | cons x xs ih => simp [strConcat, ih, String.append_assoc]

theorem ne_of_getElem (s t : String) (n : Nat) (h : s.data[n]? ≠ t.data[n]?) :
    s ≠ t := fun e => h (e ▸ rfl)

theorem getElem_append_left (p v : String) (n : Nat) (h : n < p.data.length) :
    (p ++ v).data[n]? = p.data[n]? := by
  rw [String.data_append]
  exact List.getElem?_append_left h

/-- Two strings with distinct characters inside their literal heads
differ, whatever their variable tails are. -/
theorem lit_append_ne (p v q w : String) (n : Nat) (hp : n < p.data.length)
    (hq : n < q.data.length) (h : p.data[n]? ≠ q.data[n]?) : p ++ v ≠ q ++ w := by
  intro e
  have e2 := congrArg (fun s : String => s.data[n]?) e
  simp only [getElem_append_left p v n hp, getElem_append_left q w n hq] at e2
  exact h e2

/-- A string with a literal head differs from a closed string whose
character at `n` disagrees with the head. -/
theorem append_ne_lit (p v t : String) (n : Nat) (hp : n < p.data.length)
    (h : p.data[n]? ≠ t.data[n]?) : p ++ v ≠ t := by
  intro e
  have e2 := congrArg (fun s : String => s.data[n]?) e
  simp only [getElem_append_left p v n hp] at e2
  exact h e2

theorem mem_ite_singleton {α : Type} {c : Prop} [Decidable c] {x a : α} :
    (x ∈ if c then [a] else []) ↔ c ∧ x = a := by
  split
  case isTrue h => simp [h]
  case isFalse h => simp [h]

/-- Induction over metadata forests: a node's children list and the
remaining siblings are both smaller. -/
theorem forest_induction (P : List SettingMeta → Prop) (h0 : P [])
    (h1 : ∀ s rest, P (SettingMeta.children s) → P rest → P (s :: rest)) :
    ∀ l, P l := by
  have key : ∀ n l, sizeOf l ≤ n → P l := by
    intro n
    induction n with
    | zero =>
      intro l h
      cases l with
      | nil => exact h0
      | cons s rest => simp at h
    | succ n ih =>
      intro l h
      cases l with
      | nil => exact h0
      | cons s rest =>
        refine h1 s rest (ih _ ?_) (ih _ ?_)
        · cases s
          simp [SettingMeta.children] at h ⊢
          omega
        · simp at h
          omega
  intro l
  exact key (sizeOf l) l (le_refl _)

theorem flattenAll_nil : flattenAll [] = [] := by simp [flattenAll]

theorem flattenAll_cons (s : SettingMeta) (rest : List SettingMeta) :
    flattenAll (s :: rest) = s :: (flattenAll s.children ++ flattenAll rest) := by
  simp [flattenAll]

theorem WriteSettingsOverview_nil (layer : Layer) :
    WriteSettingsOverview layer [] = "" := by simp [WriteSettingsOverview]

theorem WriteSettingsOverview_cons (layer : Layer) (s : SettingMeta)
    (rest : List SettingMeta) :
    WriteSettingsOverview layer (s :: rest) =
      (if emittedSetting s then overviewRow layer s else "")
        ++ WriteSettingsOverview layer s.children
        ++ WriteSettingsOverview layer rest := by
  simp [WriteSettingsOverview]

theorem WriteSettingsDetails_nil (layer : Layer) :
    WriteSettingsDetails layer [] = "" := by simp [WriteSettingsDetails]

theorem WriteSettingsDetails_cons (layer : Layer) (s : SettingMeta)
    (rest : List SettingMeta) :
    WriteSettingsDetails layer (s :: rest) =
      (if emittedSetting s then detailBlock layer s else "")
        ++ WriteSettingsDetails layer s.children
        ++ WriteSettingsDetails layer rest := by
  simp [WriteSettingsDetails]

/-- The overview traversal emits exactly the rows of the non-group,
non-hidden nodes of the flattened forest, in traversal order. -/
theorem overview_join (layer : Layer) : ∀ l,
    WriteSettingsOverview layer l =
      strConcat (((flattenAll l).filter emittedSetting).map (overviewRow layer)) := by
  refine forest_induction _ ?_ ?_
  · simp [WriteSettingsOverview_nil, flattenAll_nil, strConcat]
  · intro s rest ih1 ih2
    rw [WriteSettingsOverview_cons, ih1, ih2, flattenAll_cons]
    by_cases he : emittedSetting s
    · simp [he, List.filter_cons, List.filter_append, strConcat, strConcat_append,
        String.append_assoc]
    · simp only [List.filter_cons, List.filter_append] at *
      simp [he, strConcat_append]

/-- The details traversal emits exactly the detailed sections of the
non-group, non-hidden nodes of the flattened forest. -/
theorem details_join (layer : Layer) : ∀ l,
    WriteSettingsDetails layer l =
      strConcat (((flattenAll l).filter emittedSetting).map (detailBlock layer)) := by
  refine forest_induction _ ?_ ?_
  · simp [WriteSettingsDetails_nil, flattenAll_nil, strConcat]
  · intro s rest ih1 ih2
    rw [WriteSettingsDetails_cons, ih1, ih2, flattenAll_cons]
    by_cases he : emittedSetting s
    · simp [he, List.filter_cons, List.filter_append, strConcat, strConcat_append,
        String.append_assoc]
    · simp only [List.filter_cons, List.filter_append] at *
      simp [he, strConcat_append]

/-- Descendants of traversed nodes are traversed: the flattened forest
is closed under taking children subtrees. -/
theorem flattenAll_trans : ∀ l, ∀ s ∈ flattenAll l,
    ∀ c ∈ flattenAll s.children, c ∈ flattenAll l := by
  refine forest_induction _ ?_ ?_
  · simp [flattenAll_nil]
  · intro s rest ih1 ih2 x hx c hc
    rw [flattenAll_cons] at hx ⊢
    rcases List.mem_cons.mp hx with h | h
    · subst h
      exact List.mem_cons_of_mem _ (List.mem_append_left _ hc)
    · rcases List.mem_append.mp h with h2 | h2
      · exact List.mem_cons_of_mem _ (List.mem_append_left _ (ih1 x h2 c hc))
      · exact List.mem_cons_of_mem _ (List.mem_append_right _ (ih2 x h2 c hc))

theorem flattenAll_length_ge : ∀ l : List SettingMeta,
    l.length ≤ (flattenAll l).length := by
  refine forest_induction _ ?_ ?_
  · simp [flattenAll_nil]
  · intro s rest _ ih2
    rw [flattenAll_cons]
    simp only [List.length_cons, List.length_append]
    omega

theorem flattenAll_length_strict : ∀ l : List SettingMeta,
    (∃ s ∈ flattenAll l, s.children ≠ []) →
    l.length < (flattenAll l).length := by
  refine forest_induction _ ?_ ?_
  · simp [flattenAll_nil]
  · intro s rest ih1 ih2 hw
    rw [flattenAll_cons]
    simp only [List.length_cons, List.length_append]
    have hrest := flattenAll_length_ge rest
    rcases hw with ⟨x, hx, hne⟩
    rw [flattenAll_cons] at hx
    rcases List.mem_cons.mp hx with h | h
    · subst h
      have h1 : 1 ≤ x.children.length := by
        cases hc : x.children with
        | nil => exact absurd hc hne
        | cons a b => simp
      have h2 := flattenAll_length_ge x.children
      omega
    · rcases List.mem_append.mp h with h2 | h2
      · have h3 : 1 ≤ (flattenAll s.children).length :=
          List.length_pos.mpr (List.ne_nil_of_mem h2)
        omega
      · have h3 := ih2 ⟨x, h2, hne⟩
        omega

/-- Split a character list at every occurrence of the separator; the
comma-separated tokens of the claim language. -/
def splitOnChar (c : Char) : List Char → List (List Char)
| [] => [[]]
| x :: xs =>
  if x = c then [] :: splitOnChar c xs
  else
    match splitOnChar c xs with
    | t :: ts => (x :: t) :: ts
    | [] => [[x]]

theorem splitOnChar_ne_nil (c : Char) : ∀ l, splitOnChar c l ≠ [] := by
  intro l
  induction l with
  | nil => simp [splitOnChar]
  | cons x xs ih =>
    simp only [splitOnChar]
    split
    · simp
    · split
      · simp
      · simp

theorem splitOnChar_no_sep (c : Char) : ∀ l, c ∉ l → splitOnChar c l = [l] := by
  intro l
  induction l with
  | nil => simp [splitOnChar]
  | cons x xs ih =>
    intro h
    have hx : ¬ x = c := fun e => h (e ▸ List.mem_cons_self x xs)
    have hxs : c ∉ xs := fun e => h (List.mem_cons_of_mem _ e)
    simp only [splitOnChar, hx, if_false, ih hxs]

theorem splitOnChar_append_sep (c : Char) : ∀ a b, c ∉ a →
    splitOnChar c (a ++ c :: b) = a :: splitOnChar c b := by
  intro a
  induction a with
  | nil =>
    intro b _
    simp [splitOnChar]
  | cons x xs ih =>
    intro b h
    have hx : ¬ x = c := fun e => h (e ▸ List.mem_cons_self x xs)
    have hxs : c ∉ xs := fun e => h (List.mem_cons_of_mem _ e)
    simp only [List.cons_append, splitOnChar, hx, if_false, List.append_eq, ih b hxs]

/-- Tokenizing a head followed by separator-prefixed pieces yields the
head and the pieces, when none of them holds the separator. -/
theorem splitOnChar_head_pieces (c : Char) : ∀ (ts : List (List Char)),
    (∀ t ∈ ts, c ∉ t) → ∀ head : List Char, c ∉ head →
    splitOnChar c (head ++ (ts.map (fun t => c :: t)).flatten) = head :: ts := by
  intro ts
  induction ts with
  | nil =>
    intro _ head hh
    simp [splitOnChar_no_sep c head hh]
  | cons t ts' ih =>
    intro hts head hh
    have ht : c ∉ t := hts t (List.mem_cons_self t ts')
    have hts' : ∀ u ∈ ts', c ∉ u := fun u hu => hts u (List.mem_cons_of_mem _ hu)
    have : head ++ (List.map (fun u => c :: u) (t :: ts')).flatten
        = head ++ c :: (t ++ (List.map (fun u => c :: u) ts').flatten) := by
      simp
    rw [this, splitOnChar_append_sep c head _ hh, ih hts' t ht]

/-- Unfolding of the list-formatting loop past index 0: every enabled
entry is rendered behind one comma, disabled entries vanish. -/
theorem processListEntriesFrom_pos : ∀ (l : List ListEntry) (i : Nat), i ≠ 0 →
    (processListEntriesFrom i l).data =
      ((l.filter (fun e => e.enabled)).map
        (fun e => ',' :: (renderListEntry e).data)).flatten := by
  intro l
  induction l with
  | nil => intro i _; simp [processListEntriesFrom]
  | cons e rest ih =>
    intro i hi
    by_cases he : e.enabled
    · simp only [processListEntriesFrom, he, if_true, hi, ite_true, ne_eq,
        not_false_iff, List.filter_cons, String.data_append, List.map_cons,
        List.flatten_cons]
      rw [ih (i + 1) (Nat.succ_ne_zero i)]
      simp [he, String.data_append]
    · simp only [processListEntriesFrom, he, List.filter_cons]
      rw [String.data_append]
      have := ih (i + 1) (Nat.succ_ne_zero i)
      simp only [Bool.false_eq_true, if_false, List.filter_cons] at *
      simp [he, this]

/-- `processListEntries` on a list whose first entry is enabled: the
first render, then one comma before each further enabled render. -/
theorem processListEntries_data (e : ListEntry) (rest : List ListEntry)
    (he : e.enabled = true) :
    (processListEntries (e :: rest)).data =
      (renderListEntry e).data ++
        ((rest.filter (fun x => x.enabled)).map
          (fun x => ',' :: (renderListEntry x).data)).flatten := by
  simp only [processListEntries, processListEntriesFrom, he, if_true, ite_true]
  rw [String.data_append]
  simp only [ne_eq, Nat.zero_ne_one]
  rw [processListEntriesFrom_pos rest 1 (by omega)]
  simp [String.data_append]

/-- Tokenization of the list formatter when the first entry is enabled
and no rendered entry holds a comma: the comma-separated tokens are
exactly the enabled entries' renders, in order. -/
theorem processListEntries_tokens (e : ListEntry) (rest : List ListEntry)
    (he : e.enabled = true)
    (hc : ∀ x ∈ e :: rest, x.enabled = true → ',' ∉ (renderListEntry x).data) :
    splitOnChar ',' (processListEntries (e :: rest)).data =
      ((e :: rest).filter (fun x => x.enabled)).map
        (fun x => (renderListEntry x).data) := by
  rw [processListEntries_data e rest he]
  have hf : ((rest.filter (fun x => x.enabled)).map
      (fun x => ',' :: (renderListEntry x).data)) =
      ((rest.filter (fun x => x.enabled)).map (fun x => (renderListEntry x).data)).map
        (fun t => ',' :: t) := by
    simp
  rw [hf, splitOnChar_head_pieces ',' _ ?_ _ ?_]
  · simp [List.filter_cons, he]
  · intro t ht
    rcases List.mem_map.mp ht with ⟨x, hx, rfl⟩
    exact hc x (List.mem_cons_of_mem _ (List.mem_of_mem_filter hx))
      (by simpa using List.of_mem_filter hx)
  · exact hc e (List.mem_cons_self e rest) he

/-- All entries disabled: the formatter yields the empty string. -/
theorem processListEntries_all_disabled : ∀ (l : List ListEntry) (i : Nat),
    (∀ x ∈ l, x.enabled = false) → processListEntriesFrom i l = "" := by
  intro l
  induction l with
  | nil => intro i _; simp [processListEntriesFrom]
  | cons e rest ih =>
    intro i h
    have he := h e (List.mem_cons_self e rest)
    simp only [processListEntriesFrom, he]
    have := ih (i + 1) (fun x hx => h x (List.mem_cons_of_mem _ hx))
    simp [this]

theorem filter_enabled_length_split (l : List ListEntry) :
    (l.filter (fun x => x.enabled)).length +
      (l.filter (fun x => !x.enabled)).length = l.length := by
  induction l with
  | nil => simp
  | cons e rest ih =>
    cases he : e.enabled
    · simp [List.filter_cons, he]
      omega
    · simp [List.filter_cons, he]
      omega

/-- C1 (amended): for LIST-typed settings (metadata default and data
value alike) the formatter renders enabled entries only — key when
non-empty, numeric fallback otherwise — but the separator check uses the
raw entry index, not a first-emitted flag. Hence when the first entry is
enabled (or nothing is enabled) the output has exactly n−k
comma-separated tokens with no stray separators, while a disabled first
entry followed by an enabled one yields a leading comma. -/
theorem C1_list_comma_separators :
    ∀ (layer : Layer) (m : SettingMeta) (dkey : String) (l : List ListEntry),
    m.payload = SettingMetaPayload.listM l →
    (GetProcessedDefaultValue m = processListEntries l ∧
     GetProcessedValue layer ⟨dkey, SettingDataPayload.listD l⟩ =
       some (processListEntries l)) ∧
    (∀ e rest, l = e :: rest → e.enabled = true →
      (∀ x ∈ l, x.enabled = true → ',' ∉ (renderListEntry x).data) →
      splitOnChar ',' (processListEntries l).data =
        (l.filter (fun x => x.enabled)).map (fun x => (renderListEntry x).data) ∧
      (splitOnChar ',' (processListEntries l).data).length =
        l.length - (l.filter (fun x => !x.enabled)).length) ∧
    ((∀ x ∈ l, x.enabled = false) → processListEntries l = "") ∧
    (∀ e rest, l = e :: rest → e.enabled = false →
      (∃ x ∈ l, x.enabled = true) →
      (processListEntries l).data.head? = some ',') := by
  intro layer m dkey l hm
  refine ⟨⟨?_, ?_⟩, ?_, ?_, ?_⟩
  · simp [GetProcessedDefaultValue, hm]
  · simp [GetProcessedValue]
  · intro e rest hl he hc
    subst hl
    constructor
    · exact processListEntries_tokens e rest he hc
    · rw [processListEntries_tokens e rest he hc]
      have := filter_enabled_length_split (e :: rest)
      simp only [List.length_map]
      omega
  · intro h
    exact processListEntries_all_disabled l 0 h
  · intro e rest hl he hx
    subst hl
    simp only [processListEntries, processListEntriesFrom, he, Bool.false_eq_true,
      if_false]
    rw [String.data_append]
    rw [processListEntriesFrom_pos rest 1 (by omega)]
    rcases hx with ⟨x, hmem, hxe⟩
    have hxr : x ∈ rest := by
      rcases List.mem_cons.mp hmem with h | h
      · subst h; rw [he] at hxe; exact absurd hxe (by simp)
      · exact h
    have : x ∈ rest.filter (fun y => y.enabled) := List.mem_filter.mpr ⟨hxr, hxe⟩
    cases hf : rest.filter (fun y => y.enabled) with
    | nil => rw [hf] at this; exact absurd this (List.not_mem_nil x)
    | cons y ys => simp [hf]

/-- A LIST default whose first entry is disabled: the claimed
"no leading separator, exactly n−k tokens" property fails — the output
is ",B", it begins with the separator, and it splits into two tokens
though only one entry (of two, one disabled) is enabled. -/
def c1Entries : List ListEntry := [⟨"A", 0, false⟩, ⟨"B", 0, true⟩]

def c1Meta : SettingMeta :=
  SettingMeta.mk "list" "List" "" "" (SettingMetaPayload.listM c1Entries)
    SettingView.STANDARD StatusType.STABLE 0 []

theorem C1_counterexample :
    GetProcessedDefaultValue c1Meta = ",B" ∧
    (GetProcessedDefaultValue c1Meta).data.head? = some ',' ∧
    (splitOnChar ',' (GetProcessedDefaultValue c1Meta).data).length = 2 ∧
    c1Entries.length - (c1Entries.filter (fun x => !x.enabled)).length = 1 := by
  decide

def c1GoodEntries : List ListEntry := [⟨"A", 0, true⟩, ⟨"", 7, false⟩, ⟨"C", 0, true⟩]

def c1GoodMeta : SettingMeta :=
  SettingMeta.mk "list" "List" "" "" (SettingMetaPayload.listM c1GoodEntries)
    SettingView.STANDARD StatusType.STABLE 0 []

def sampleLayer : Layer :=
  { key := "VK_LAYER_TEST", url := "", description := "", introduction := "",
    api_version := ⟨1, 7, 200⟩, implementation_version := "2",
    file_format_version := ⟨1, 2, 0⟩, manifest_path := "path/m.json",
    binary_path := "bin", platforms := 1, status := StatusType.STABLE,
    settings := [], presets := [] }

theorem C1_witness :
    splitOnChar ',' (processListEntries c1GoodEntries).data =
      (c1GoodEntries.filter (fun x => x.enabled)).map
        (fun x => (renderListEntry x).data) ∧
    (splitOnChar ',' (processListEntries c1GoodEntries).data).length =
      c1GoodEntries.length - (c1GoodEntries.filter (fun x => !x.enabled)).length :=
  (C1_list_comma_separators sampleLayer c1GoodMeta "list" c1GoodEntries rfl).2.1
    ⟨"A", 0, true⟩ [⟨"", 7, false⟩, ⟨"C", 0, true⟩] rfl rfl (by decide)

/-- C2: a FLOAT data value failing the metadata's validity check is
formatted exactly as the metadata's default (same per-setting format
spec), with no error propagated. -/
theorem C2_float_invalid_falls_back :
    ∀ (layer : Layer) (k : String) (v d lo hi : Int) (dec : Nat) (m : SettingMeta),
    FindSettingMeta layer.settings k = some m →
    m.payload = SettingMetaPayload.floatM d lo hi dec →
    floatIsValid lo hi v = false →
    GetProcessedValue layer ⟨k, SettingDataPayload.floatD v⟩ =
      some (GetProcessedDefaultValue m) := by
  intro layer k v d lo hi dec m h1 h2 h3
  simp [GetProcessedValue, FindSettingMetaFloat, h1, h2, h3, GetProcessedDefaultValue]

def c2Meta : SettingMeta :=
  SettingMeta.mk "f" "F" "" "" (SettingMetaPayload.floatM 5 0 10 2)
    SettingView.STANDARD StatusType.STABLE 0 []

def c2Layer : Layer := { sampleLayer with settings := [c2Meta] }

theorem C2_witness :
    floatIsValid 0 10 99 = false ∧
    GetProcessedValue c2Layer ⟨"f", SettingDataPayload.floatD 99⟩ =
      some (GetProcessedDefaultValue c2Meta) :=
  ⟨by decide,
   C2_float_invalid_falls_back c2Layer "f" 99 5 0 10 2 c2Meta
     (by simp [FindSettingMeta, c2Layer, c2Meta, sampleLayer, SettingMeta.key])
     rfl (by decide)⟩

/-- C6: the settings-doc URL is the SDK-tagged template instantiated
with the layer's version string when the API version exceeds 1.7.176,
and one fixed master-branch URL — the same for every such layer —
otherwise. -/
theorem C6_doc_url_from_api_version :
    ∀ layer : Layer,
    (Version.lt ⟨1, 7, 176⟩ layer.api_version = true →
      GetLayerSettingsDocURL layer =
        "https://github.com/LunarG/VulkanTools/tree/sdk-" ++
          (layer.api_version.str ++ ".0/vkconfig#vulkan-layers-settings")) ∧
    (Version.lt ⟨1, 7, 176⟩ layer.api_version = false →
      ∀ layer2 : Layer, Version.lt ⟨1, 7, 176⟩ layer2.api_version = false →
      GetLayerSettingsDocURL layer = GetLayerSettingsDocURL layer2 ∧
      GetLayerSettingsDocURL layer =
        "https://github.com/LunarG/VulkanTools/tree/master/vkconfig#vulkan-layers-settings") := by
  intro layer
  constructor
  · intro h
    simp [GetLayerSettingsDocURL, h]
  · intro h layer2 h2
    constructor
    · simp [GetLayerSettingsDocURL, h, h2]
    · simp [GetLayerSettingsDocURL, h]

def c6LayerHigh : Layer := { sampleLayer with api_version := ⟨1, 7, 200⟩ }

def c6LayerLow : Layer := { sampleLayer with api_version := ⟨1, 7, 176⟩ }

theorem C6_witness :
    GetLayerSettingsDocURL c6LayerHigh =
      "https://github.com/LunarG/VulkanTools/tree/sdk-" ++
        (c6LayerHigh.api_version.str ++ ".0/vkconfig#vulkan-layers-settings") ∧
    GetLayerSettingsDocURL c6LayerLow =
      "https://github.com/LunarG/VulkanTools/tree/master/vkconfig#vulkan-layers-settings" :=
  ⟨(C6_doc_url_from_api_version c6LayerHigh).1 (by decide),
   ((C6_doc_url_from_api_version c6LayerLow).2 (by decide) c6LayerLow (by decide)).2⟩

/-- C7 (counterexample): the platform builder wraps each token in a code
span, so the output for the mask with the first two canonical bits set
is not the bare "WINDOWS, LINUX". -/
theorem C7_counterexample :
    BuildPlatformsHTML 3 =
      "<span class=\"code\">WINDOWS</ span>, <span class=\"code\">LINUX</ span>" ∧
    BuildPlatformsHTML 3 ≠ "WINDOWS, LINUX" ∧
    GetPlatformTokens 3 = ["WINDOWS", "LINUX"] := by
  decide

/-- C7 (amended): the platform builder joins the canonical-order names
of the set bits with ", ", wrapping each name in a code span; the empty
mask yields the empty string. -/
theorem C7_platforms_join :
    ∀ mask : Nat,
    BuildPlatformsHTML mask =
      strConcat (List.intersperse ", "
        ((GetPlatformTokens mask).map
          (fun t => "<span class=\"code\">" ++ (t ++ "</ span>")))) ∧
    BuildPlatformsHTML 0 = "" := by
  have key : ∀ l : List String, buildPlatformsJoin l =
      strConcat (List.intersperse ", "
        (l.map (fun t => "<span class=\"code\">" ++ (t ++ "</ span>")))) := by
    intro l
    induction l with
    | nil => simp [buildPlatformsJoin, strConcat]
    | cons x xs ih =>
      cases xs with
      | nil => simp [buildPlatformsJoin, strConcat, List.intersperse]
      | cons y ys =>
        rw [buildPlatformsJoin, ih]
        simp only [List.map_cons, List.intersperse, strConcat, String.append_assoc]
  intro mask
  exact ⟨key (GetPlatformTokens mask), by decide⟩

/-- C4: the document traversals suppress GROUP nodes and hidden nodes as
rows/sections while still recursing through their children, so the
overview and the detailed section each consist of exactly the rendered
entries of the non-group, non-hidden descendants at any depth, and every
such descendant's row and section occur in them. -/
theorem C4_group_hidden_traversal :
    ∀ (layer : Layer) (settings : List SettingMeta),
    WriteSettingsOverview layer settings =
      strConcat (((flattenAll settings).filter emittedSetting).map (overviewRow layer)) ∧
    WriteSettingsDetails layer settings =
      strConcat (((flattenAll settings).filter emittedSetting).map (detailBlock layer)) ∧
    (∀ s ∈ flattenAll settings,
      s.type = SettingType.GROUP ∨ s.view = SettingView.HIDDEN →
      s ∉ (flattenAll settings).filter emittedSetting) ∧
    (∀ s ∈ flattenAll settings, ∀ c ∈ flattenAll s.children, c ∈ flattenAll settings) ∧
    (∀ s ∈ flattenAll settings,
      s.type ≠ SettingType.GROUP → s.view ≠ SettingView.HIDDEN →
      overviewRow layer s ∈
        ((flattenAll settings).filter emittedSetting).map (overviewRow layer) ∧
      detailBlock layer s ∈
        ((flattenAll settings).filter emittedSetting).map (detailBlock layer)) := by
  intro layer settings
  refine ⟨overview_join layer settings, details_join layer settings, ?_, ?_, ?_⟩
  · intro s _ h hmem
    have he := (List.mem_filter.mp hmem).2
    simp only [emittedSetting, Bool.and_eq_true, decide_eq_true_eq] at he
    rcases h with h | h
    · exact he.1 h
    · exact he.2 h
  · exact flattenAll_trans settings
  · intro s hs h1 h2
    have hf : s ∈ (flattenAll settings).filter emittedSetting :=
      List.mem_filter.mpr ⟨hs, by simp [emittedSetting, h1, h2]⟩
    exact ⟨List.mem_map_of_mem _ hf, List.mem_map_of_mem _ hf⟩

def c4Child : SettingMeta :=
  SettingMeta.mk "c4c" "C" "" "" (SettingMetaPayload.boolM true)
    SettingView.STANDARD StatusType.STABLE 0 []

def c4Group : SettingMeta :=
  SettingMeta.mk "c4g" "G" "" "" SettingMetaPayload.group
    SettingView.STANDARD StatusType.STABLE 0 [c4Child]

def c4Layer : Layer := { sampleLayer with settings := [c4Group] }

theorem C4_witness :
    overviewRow c4Layer c4Child ∈
      ((flattenAll c4Layer.settings).filter emittedSetting).map (overviewRow c4Layer) ∧
    detailBlock c4Layer c4Child ∈
      ((flattenAll c4Layer.settings).filter emittedSetting).map (detailBlock c4Layer) :=
  (C4_group_hidden_traversal c4Layer c4Layer.settings).2.2.2.2 c4Child
    (by simp [c4Layer, sampleLayer, flattenAll, c4Group, SettingMeta.children])
    (by decide) (by decide)

/-- C10 (counterexample): a layer with one hidden top-level setting that
has one visible child: the layer contains a setting with children, the
printed top-level count is 1, but the overview emits exactly one row as
well, so the count is not strictly less than the row count. -/
def c10Child : SettingMeta :=
  SettingMeta.mk "cc" "CC" "" "" (SettingMetaPayload.boolM true)
    SettingView.STANDARD StatusType.STABLE 0 []

def c10Parent : SettingMeta :=
  SettingMeta.mk "cp" "CP" "" "" (SettingMetaPayload.boolM true)
    SettingView.HIDDEN StatusType.STABLE 0 [c10Child]

def c10Layer : Layer := { sampleLayer with settings := [c10Parent] }

theorem C10_counterexample :
    c10Layer.settings.length = 1 ∧
    (∃ s ∈ flattenAll c10Layer.settings, s.children ≠ []) ∧
    ((flattenAll c10Layer.settings).filter emittedSetting).length = 1 ∧
    WriteSettingsOverview c10Layer c10Layer.settings = overviewRow c10Layer c10Child ∧
    ¬ (c10Layer.settings.length <
        ((flattenAll c10Layer.settings).filter emittedSetting).length) := by
  have hf : flattenAll c10Layer.settings = [c10Parent, c10Child] := by
    simp [c10Layer, sampleLayer, flattenAll, c10Parent, c10Child, SettingMeta.children]
  have h1 : emittedSetting c10Parent = false := by decide
  have h2 : emittedSetting c10Child = true := by decide
  refine ⟨rfl, ⟨c10Parent, ?_, ?_⟩, ?_, ?_, ?_⟩
  · rw [hf]; exact List.mem_cons_self _ _
  · simp [c10Parent, SettingMeta.children]
  · rw [hf]
    simp [List.filter_cons, h1, h2]
  · rw [overview_join, hf]
    simp [List.filter_cons, h1, h2, strConcat]
  · rw [hf]
    intro h
    simp [List.filter_cons, h1, h2, c10Layer, sampleLayer] at h

/-- C10 (amended): the "Number of Layer Settings" line prints the number
of top-level entries of the root setting set only; on a forest whose
nodes are all emitted (non-group, non-hidden) and in which some setting
has children, that count is strictly smaller than the number of overview
rows. -/
theorem C10_top_level_count :
    ∀ layer : Layer,
    (layer.settings.isEmpty = false →
      settingsCountLine layer ∈ layerPropertiesPieces layer) ∧
    settingsCountLine layer =
      "\t<li><a href=\"#settings\">Number of Layer Settings: " ++
        (toString layer.settings.length ++ "</a></li>\n") ∧
    ((∀ s ∈ flattenAll layer.settings, emittedSetting s = true) →
     (∃ s ∈ flattenAll layer.settings, s.children ≠ []) →
     layer.settings.length <
       ((flattenAll layer.settings).filter emittedSetting).length) := by
  intro layer
  refine ⟨?_, rfl, ?_⟩
  · intro h
    simp [layerPropertiesPieces, h]
  · intro h1 h2
    have : (flattenAll layer.settings).filter emittedSetting =
        flattenAll layer.settings := List.filter_eq_self.mpr h1
    rw [this]
    exact flattenAll_length_strict layer.settings h2

def c10GoodParent : SettingMeta :=
  SettingMeta.mk "gp" "GP" "" "" (SettingMetaPayload.boolM true)
    SettingView.STANDARD StatusType.STABLE 0 [c10Child]

def c10GoodLayer : Layer := { sampleLayer with settings := [c10GoodParent] }

theorem C10_witness :
    c10GoodLayer.settings.length <
      ((flattenAll c10GoodLayer.settings).filter emittedSetting).length :=
  (C10_top_level_count c10GoodLayer).2.2
    (by
      have hf : flattenAll c10GoodLayer.settings = [c10GoodParent, c10Child] := by
        simp [c10GoodLayer, sampleLayer, flattenAll, c10GoodParent, c10Child,
          SettingMeta.children]
      rw [hf]
      intro s hs
      rcases List.mem_cons.mp hs with h | h
      · subst h; decide
      · rcases List.mem_cons.mp h with h2 | h2
        · subst h2; decide
        · exact absurd h2 (List.not_mem_nil s))
    (by
      refine ⟨c10GoodParent, ?_, by simp [c10GoodParent, SettingMeta.children]⟩
      have hf : flattenAll c10GoodLayer.settings = [c10GoodParent, c10Child] := by
        simp [c10GoodLayer, sampleLayer, flattenAll, c10GoodParent, c10Child,
          SettingMeta.children]
      rw [hf]
      exact List.mem_cons_self _ _)

/-- C8: the enum-value sub-table is appended for enum-typed settings and
for no other setting type; its rows skip enum values whose view is
hidden, and an empty description renders as an "N/A" cell. -/
theorem C8_enum_subtable :
    ∀ (layer : Layer) (s : SettingMeta),
    (s.type ≠ SettingType.ENUM → detailBlock layer s = detailBlockCommon layer s) ∧
    (∀ dv vs, s.payload = SettingMetaPayload.enumM dv vs →
      detailBlock layer s = detailBlockCommon layer s ++ enumValueTable s vs) ∧
    (∀ vs, enumValueRows s vs =
      strConcat ((vs.filter (fun v => v.view ≠ SettingView.HIDDEN)).map
        (enumValueRow s))) ∧
    (∀ v : SettingEnumValue, v.description = "" →
      enumValueRow s v =
        "<tr>\n" ++ ("\t<td>" ++ (v.key ++ "</td>\n"))
          ++ ("\t<td>" ++ (v.label ++ "</td>\n"))
          ++ "\t<td>N/A</td>\n"
          ++ ("\t<td>" ++ (BuildPlatformsHTML s.platform_flags ++ "</td>\n"))
          ++ "</tr>\n") := by
  intro layer s
  refine ⟨?_, ?_, ?_, ?_⟩
  · intro h
    simp [detailBlock, detailEnumPart, IsEnum, h]
  · intro dv vs h
    have ht : s.type = SettingType.ENUM := by
      simp [SettingMeta.type, h, SettingMetaPayload.type]
    simp [detailBlock, detailEnumPart, IsEnum, ht, h]
  · intro vs
    induction vs with
    | nil => simp [enumValueRows, strConcat]
    | cons v rest ih =>
      by_cases hv : v.view = SettingView.HIDDEN
      · simp [enumValueRows, hv, List.filter_cons, ih]
      · simp [enumValueRows, hv, List.filter_cons, ih, strConcat]
  · intro v h
    simp [enumValueRow, h]

def c8Values : List SettingEnumValue :=
  [⟨"V1", "L1", "", SettingView.STANDARD⟩, ⟨"V2", "L2", "d2", SettingView.HIDDEN⟩]

def c8Meta : SettingMeta :=
  SettingMeta.mk "e" "E" "" "" (SettingMetaPayload.enumM "V1" c8Values)
    SettingView.STANDARD StatusType.STABLE 0 []

theorem C8_witness :
    detailBlock sampleLayer c8Meta =
      detailBlockCommon sampleLayer c8Meta ++ enumValueTable c8Meta c8Values ∧
    enumValueRows c8Meta c8Values =
      strConcat ((c8Values.filter (fun v => v.view ≠ SettingView.HIDDEN)).map
        (enumValueRow c8Meta)) :=
  ⟨(C8_enum_subtable sampleLayer c8Meta).2.1 "V1" c8Values rfl,
   (C8_enum_subtable sampleLayer c8Meta).2.2.1 c8Values⟩

theorem mem_ite_nil_singleton {α : Type} {c : Prop} [Decidable c] {x a : α} :
    (x ∈ if c then [] else [a]) ↔ ¬c ∧ x = a := by
  split
  case isTrue h => simp [h]
  case isFalse h => simp [h]

theorem platformsLine_not_mem (layer : Layer) (h : layer.platforms = 0) :
    platformsLine layer ∉ layerPropertiesPieces layer := by
  intro hmem
  have hc : ¬ (layer.platforms ≠ 0) := fun hh => hh h
  unfold layerPropertiesPieces at hmem
  rw [if_neg hc] at hmem
  simp only [List.append_nil, List.nil_append, List.mem_append, List.mem_cons,
    List.not_mem_nil, mem_ite_singleton, mem_ite_nil_singleton, or_false,
    false_or] at hmem
  rcases hmem with
    ((((h1 | h1 | h1 | h1 | h1 | h1 | h1 | h1) | ⟨_, h1⟩) | ⟨_, h1⟩) | ⟨_, h1⟩) | h1
  · exact absurd h1 (by
      unfold platformsLine
      exact append_ne_lit _ _ _ 0 (by decide) (by decide))
  · exact absurd h1 (by
      unfold platformsLine
      exact append_ne_lit _ _ _ 0 (by decide) (by decide))
  · exact absurd h1 (by
      unfold platformsLine apiVersionLine
      exact lit_append_ne _ _ _ _ 5 (by decide) (by decide) (by decide))
  · exact absurd h1 (by
      unfold platformsLine implementationVersionLine
      exact lit_append_ne _ _ _ _ 5 (by decide) (by decide) (by decide))
  · exact absurd h1 (by
      unfold platformsLine manifestLine
      exact lit_append_ne _ _ _ _ 5 (by decide) (by decide) (by decide))
  · exact absurd h1 (by
      unfold platformsLine fileFormatLine
      exact lit_append_ne _ _ _ _ 1 (by decide) (by decide) (by decide))
  · exact absurd h1 (by
      unfold platformsLine binaryPathLine
      exact lit_append_ne _ _ _ _ 1 (by decide) (by decide) (by decide))
  · exact absurd h1 (by
      unfold platformsLine
      exact append_ne_lit _ _ _ 2 (by decide) (by decide))
  · exact absurd h1 (by
      unfold platformsLine statusLine
      exact lit_append_ne _ _ _ _ 6 (by decide) (by decide) (by decide))
  · exact absurd h1 (by
      unfold platformsLine settingsCountLine
      exact lit_append_ne _ _ _ _ 5 (by decide) (by decide) (by decide))
  · exact absurd h1 (by
      unfold platformsLine presetsCountLine
      exact lit_append_ne _ _ _ _ 5 (by decide) (by decide) (by decide))
  · exact absurd h1 (by
      unfold platformsLine
      exact append_ne_lit _ _ _ 0 (by decide) (by decide))

theorem statusLine_not_mem (layer : Layer) (h : layer.status = StatusType.STABLE) :
    statusLine layer ∉ layerPropertiesPieces layer := by
  intro hmem
  have hc : ¬ (layer.status ≠ StatusType.STABLE) := fun hh => hh h
  unfold layerPropertiesPieces at hmem
  rw [if_neg hc] at hmem
  simp only [List.append_nil, List.nil_append, List.mem_append, List.mem_cons,
    List.not_mem_nil, mem_ite_singleton, mem_ite_nil_singleton, or_false,
    false_or] at hmem
  rcases hmem with
    ((((h1 | h1 | h1 | h1 | h1 | h1 | h1 | h1) | ⟨_, h1⟩) | ⟨_, h1⟩) | ⟨_, h1⟩) | h1
  · exact absurd h1 (by
      unfold statusLine
      exact append_ne_lit _ _ _ 0 (by decide) (by decide))
  · exact absurd h1 (by
      unfold statusLine
      exact append_ne_lit _ _ _ 0 (by decide) (by decide))
  · exact absurd h1 (by
      unfold statusLine apiVersionLine
      exact lit_append_ne _ _ _ _ 5 (by decide) (by decide) (by decide))
  · exact absurd h1 (by
      unfold statusLine implementationVersionLine
      exact lit_append_ne _ _ _ _ 5 (by decide) (by decide) (by decide))
  · exact absurd h1 (by
      unfold statusLine manifestLine
      exact lit_append_ne _ _ _ _ 5 (by decide) (by decide) (by decide))
  · exact absurd h1 (by
      unfold statusLine fileFormatLine
      exact lit_append_ne _ _ _ _ 1 (by decide) (by decide) (by decide))
  · exact absurd h1 (by
      unfold statusLine binaryPathLine
      exact lit_append_ne _ _ _ _ 1 (by decide) (by decide) (by decide))
  · exact absurd h1 (by
      unfold statusLine
      exact append_ne_lit _ _ _ 2 (by decide) (by decide))
  · exact absurd h1 (by
      unfold statusLine platformsLine
      exact lit_append_ne _ _ _ _ 6 (by decide) (by decide) (by decide))
  · exact absurd h1 (by
      unfold statusLine settingsCountLine
      exact lit_append_ne _ _ _ _ 5 (by decide) (by decide) (by decide))
  · exact absurd h1 (by
      unfold statusLine presetsCountLine
      exact lit_append_ne _ _ _ _ 5 (by decide) (by decide) (by decide))
  · exact absurd h1 (by
      unfold statusLine
      exact append_ne_lit _ _ _ 0 (by decide) (by decide))

theorem settingsCountLine_not_mem (layer : Layer) (h : layer.settings = []) :
    settingsCountLine layer ∉ layerPropertiesPieces layer := by
  intro hmem
  have hc : layer.settings.isEmpty = true := by simp [h]
  unfold layerPropertiesPieces at hmem
  rw [if_pos hc] at hmem
  simp only [List.append_nil, List.nil_append, List.mem_append, List.mem_cons,
    List.not_mem_nil, mem_ite_singleton, mem_ite_nil_singleton, or_false,
    false_or] at hmem
  rcases hmem with
    ((((h1 | h1 | h1 | h1 | h1 | h1 | h1 | h1) | ⟨_, h1⟩) | ⟨_, h1⟩) | ⟨_, h1⟩) | h1
  · exact absurd h1 (by
      unfold settingsCountLine
      exact append_ne_lit _ _ _ 0 (by decide) (by decide))
  · exact absurd h1 (by
      unfold settingsCountLine
      exact append_ne_lit _ _ _ 0 (by decide) (by decide))
  · exact absurd h1 (by
      unfold settingsCountLine apiVersionLine
      exact lit_append_ne _ _ _ _ 5 (by decide) (by decide) (by decide))
  · exact absurd h1 (by
      unfold settingsCountLine implementationVersionLine
      exact lit_append_ne _ _ _ _ 5 (by decide) (by decide) (by decide))
  · exact absurd h1 (by
      unfold settingsCountLine manifestLine
      exact lit_append_ne _ _ _ _ 5 (by decide) (by decide) (by decide))
  · exact absurd h1 (by
      unfold settingsCountLine fileFormatLine
      exact lit_append_ne _ _ _ _ 1 (by decide) (by decide) (by decide))
  · exact absurd h1 (by
      unfold settingsCountLine binaryPathLine
      exact lit_append_ne _ _ _ _ 1 (by decide) (by decide) (by decide))
  · exact absurd h1 (by
      unfold settingsCountLine
      exact append_ne_lit _ _ _ 2 (by decide) (by decide))
  · exact absurd h1 (by
      unfold settingsCountLine platformsLine
      exact lit_append_ne _ _ _ _ 5 (by decide) (by decide) (by decide))
  · exact absurd h1 (by
      unfold settingsCountLine statusLine
      exact lit_append_ne _ _ _ _ 5 (by decide) (by decide) (by decide))
  · exact absurd h1 (by
      unfold settingsCountLine presetsCountLine
      exact lit_append_ne _ _ _ _ 15 (by decide) (by decide) (by decide))
  · exact absurd h1 (by
      unfold settingsCountLine
      exact append_ne_lit _ _ _ 0 (by decide) (by decide))

theorem presetsCountLine_not_mem (layer : Layer) (h : layer.presets = []) :
    presetsCountLine layer ∉ layerPropertiesPieces layer := by
  intro hmem
  have hc : layer.presets.isEmpty = true := by simp [h]
  unfold layerPropertiesPieces at hmem
  rw [if_pos hc] at hmem
  simp only [List.append_nil, List.nil_append, List.mem_append, List.mem_cons,
    List.not_mem_nil, mem_ite_singleton, mem_ite_nil_singleton, or_false,
    false_or] at hmem
  rcases hmem with
    ((((h1 | h1 | h1 | h1 | h1 | h1 | h1 | h1) | ⟨_, h1⟩) | ⟨_, h1⟩) | ⟨_, h1⟩) | h1
  · exact absurd h1 (by
      unfold presetsCountLine
      exact append_ne_lit _ _ _ 0 (by decide) (by decide))
  · exact absurd h1 (by
      unfold presetsCountLine
      exact append_ne_lit _ _ _ 0 (by decide) (by decide))
  · exact absurd h1 (by
      unfold presetsCountLine apiVersionLine
      exact lit_append_ne _ _ _ _ 5 (by decide) (by decide) (by decide))
  · exact absurd h1 (by
      unfold presetsCountLine implementationVersionLine
      exact lit_append_ne _ _ _ _ 5 (by decide) (by decide) (by decide))
  · exact absurd h1 (by
      unfold presetsCountLine manifestLine
      exact lit_append_ne _ _ _ _ 5 (by decide) (by decide) (by decide))
  · exact absurd h1 (by
      unfold presetsCountLine fileFormatLine
      exact lit_append_ne _ _ _ _ 1 (by decide) (by decide) (by decide))
  · exact absurd h1 (by
      unfold presetsCountLine binaryPathLine
      exact lit_append_ne _ _ _ _ 1 (by decide) (by decide) (by decide))
  · exact absurd h1 (by
      unfold presetsCountLine
      exact append_ne_lit _ _ _ 2 (by decide) (by decide))
  · exact absurd h1 (by
      unfold presetsCountLine platformsLine
      exact lit_append_ne _ _ _ _ 5 (by decide) (by decide) (by decide))
  · exact absurd h1 (by
      unfold presetsCountLine statusLine
      exact lit_append_ne _ _ _ _ 5 (by decide) (by decide) (by decide))
  · exact absurd h1 (by
      unfold presetsCountLine settingsCountLine
      exact lit_append_ne _ _ _ _ 15 (by decide) (by decide) (by decide))
  · exact absurd h1 (by
      unfold presetsCountLine
      exact append_ne_lit _ _ _ 0 (by decide) (by decide))

/-- C3 (amended): in the Layer Properties list, only the platforms,
status, setting-count and preset-count lines are conditional (bitmask
nonzero, non-stable status, nonempty collections); the API version,
implementation version, manifest filename, file-format version and
binary path lines are emitted for every layer, even when the underlying
field is empty. -/
theorem C3_properties_lines :
    ∀ layer : Layer,
    apiVersionLine layer ∈ layerPropertiesPieces layer ∧
    implementationVersionLine layer ∈ layerPropertiesPieces layer ∧
    manifestLine layer ∈ layerPropertiesPieces layer ∧
    fileFormatLine layer ∈ layerPropertiesPieces layer ∧
    binaryPathLine layer ∈ layerPropertiesPieces layer ∧
    (platformsLine layer ∈ layerPropertiesPieces layer ↔ layer.platforms ≠ 0) ∧
    (statusLine layer ∈ layerPropertiesPieces layer ↔
      layer.status ≠ StatusType.STABLE) ∧
    (settingsCountLine layer ∈ layerPropertiesPieces layer ↔
      layer.settings ≠ []) ∧
    (presetsCountLine layer ∈ layerPropertiesPieces layer ↔
      layer.presets ≠ []) := by
  intro layer
  refine ⟨?_, ?_, ?_, ?_, ?_, ⟨?_, ?_⟩, ⟨?_, ?_⟩, ⟨?_, ?_⟩, ⟨?_, ?_⟩⟩
  · simp [layerPropertiesPieces]
  · simp [layerPropertiesPieces]
  · simp [layerPropertiesPieces]
  · simp [layerPropertiesPieces]
  · simp [layerPropertiesPieces]
  · intro hmem
    by_contra hn
    exact platformsLine_not_mem layer hn hmem
  · intro hc
    simp [layerPropertiesPieces, hc]
  · intro hmem
    by_contra hn
    exact statusLine_not_mem layer hn hmem
  · intro hc
    simp [layerPropertiesPieces, hc]
  · intro hmem
    by_contra hn
    exact settingsCountLine_not_mem layer hn hmem
  · intro hc
    have : layer.settings.isEmpty = false := by
      cases hs : layer.settings with
      | nil => exact absurd hs hc
      | cons a b => simp
    simp [layerPropertiesPieces, this]
  · intro hmem
    by_contra hn
    exact presetsCountLine_not_mem layer hn hmem
  · intro hc
    have : layer.presets.isEmpty = false := by
      cases hs : layer.presets with
      | nil => exact absurd hs hc
      | cons a b => simp
    simp [layerPropertiesPieces, this]

def c3Layer : Layer := { sampleLayer with implementation_version := "" }

/-- C3 (counterexample): a layer with an absent (empty) implementation
version still gets its "Implementation Version" line — as an empty-value
placeholder — so the line is not suppressed when the field is absent. -/
theorem C3_counterexample :
    c3Layer.implementation_version = "" ∧
    implementationVersionLine c3Layer = "\t<li>Implementation Version: </li>\n" ∧
    implementationVersionLine c3Layer ∈ layerPropertiesPieces c3Layer := by
  refine ⟨rfl, by decide, ?_⟩
  simp [layerPropertiesPieces]

theorem C3_witness :
    apiVersionLine sampleLayer ∈ layerPropertiesPieces sampleLayer ∧
    (platformsLine sampleLayer ∈ layerPropertiesPieces sampleLayer ↔
      sampleLayer.platforms ≠ 0) ∧
    (statusLine sampleLayer ∈ layerPropertiesPieces sampleLayer ↔
      sampleLayer.status ≠ StatusType.STABLE) :=
  ⟨(C3_properties_lines sampleLayer).1,
   (C3_properties_lines sampleLayer).2.2.2.2.2.1,
   (C3_properties_lines sampleLayer).2.2.2.2.2.2.1⟩

/-- The overview-section heading piece (`doc.cpp:357`). -/
def overviewHeadingPiece : String :=
  "<h2><a href=\"#top\" id=\"settings\">Layer Settings Overview</a></h2>\n"

/-- The details-section heading piece (`doc.cpp:367`). -/
def detailsHeadingPiece : String :=
  "<h2><a href=\"#top\">Layer Settings Details</a></h2>\n"

/-- The presets-section heading piece (`doc.cpp:372`). -/
def presetsHeadingPiece : String :=
  "<h2><a href=\"#top\" id=\"presets\">Layer Presets</a></h2>\n"

theorem sectionHeading_not_mem_title (layer : Layer) (t : String)
    (ht : t = overviewHeadingPiece ∨ t = detailsHeadingPiece ∨ t = presetsHeadingPiece)
    (hk : layer.key ++ "\n" ≠ t) :
    t ∉ exportTitlePieces layer := by
  have th0 : t.data[0]? = some '<' := by rcases ht with rfl | rfl | rfl <;> decide
  have th1 : t.data[1]? = some 'h' := by rcases ht with rfl | rfl | rfl <;> decide
  have th2 : t.data[2]? = some '2' := by rcases ht with rfl | rfl | rfl <;> decide
  intro hmem
  unfold exportTitlePieces at hmem
  simp only [List.append_nil, List.nil_append, List.mem_append, List.mem_cons,
    List.not_mem_nil, mem_ite_singleton, mem_ite_nil_singleton, or_false,
    false_or, List.cons_append, List.singleton_append] at hmem
  rcases hmem with h1 | h1 | ((⟨_, h1⟩ | h1) | ⟨_, h1⟩) | ⟨_, h1⟩
  · rcases ht with rfl | rfl | rfl <;> exact absurd h1 (by decide)
  · by_cases hu : layer.url = ""
    · rw [if_pos hu] at h1
      exact hk h1.symm
    · rw [if_neg hu] at h1
      exact absurd h1.symm (append_ne_lit _ _ _ 1 (by decide) (by rw [th1]; decide))
  · exact absurd h1.symm (append_ne_lit _ _ _ 0 (by decide) (by rw [th0]; decide))
  · rcases ht with rfl | rfl | rfl <;> exact absurd h1 (by decide)
  · exact absurd h1.symm (append_ne_lit _ _ _ 2 (by decide) (by rw [th2]; decide))
  · exact absurd h1.symm (append_ne_lit _ _ _ 1 (by decide) (by rw [th1]; decide))

theorem sectionHeading_not_mem_props (layer : Layer) (t : String)
    (ht : t = overviewHeadingPiece ∨ t = detailsHeadingPiece ∨ t = presetsHeadingPiece) :
    t ∉ layerPropertiesPieces layer := by
  have th0 : t.data[0]? = some '<' := by rcases ht with rfl | rfl | rfl <;> decide
  intro hmem
  unfold layerPropertiesPieces at hmem
  simp only [List.append_nil, List.nil_append, List.mem_append, List.mem_cons,
    List.not_mem_nil, mem_ite_singleton, mem_ite_nil_singleton, or_false,
    false_or] at hmem
  rcases hmem with
    (((((h1 | h1 | h1 | h1 | h1 | h1 | h1 | h1) | ⟨_, h1⟩) | ⟨_, h1⟩) | ⟨_, h1⟩) | ⟨_, h1⟩) | h1
  · rcases ht with rfl | rfl | rfl <;> exact absurd h1 (by decide)
  · rcases ht with rfl | rfl | rfl <;> exact absurd h1 (by decide)
  · exact absurd h1.symm (by
      unfold apiVersionLine
      exact append_ne_lit _ _ _ 0 (by decide) (by rw [th0]; decide))
  · exact absurd h1.symm (by
      unfold implementationVersionLine
      exact append_ne_lit _ _ _ 0 (by decide) (by rw [th0]; decide))
  · exact absurd h1.symm (by
      unfold manifestLine
      exact append_ne_lit _ _ _ 0 (by decide) (by rw [th0]; decide))
  · exact absurd h1.symm (by
      unfold fileFormatLine
      exact append_ne_lit _ _ _ 0 (by decide) (by rw [th0]; decide))
  · exact absurd h1.symm (by
      unfold binaryPathLine
      exact append_ne_lit _ _ _ 0 (by decide) (by rw [th0]; decide))
  · rcases ht with rfl | rfl | rfl <;> exact absurd h1 (by decide)
  · exact absurd h1.symm (by
      unfold platformsLine
      exact append_ne_lit _ _ _ 0 (by decide) (by rw [th0]; decide))
  · exact absurd h1.symm (by
      unfold statusLine
      exact append_ne_lit _ _ _ 0 (by decide) (by rw [th0]; decide))
  · exact absurd h1.symm (by
      unfold settingsCountLine
      exact append_ne_lit _ _ _ 0 (by decide) (by rw [th0]; decide))
  · exact absurd h1.symm (by
      unfold presetsCountLine
      exact append_ne_lit _ _ _ 0 (by decide) (by rw [th0]; decide))
  · rcases ht with rfl | rfl | rfl <;> exact absurd h1 (by decide)

theorem sectionHeading_not_mem_visit (layer : Layer) (t : String)
    (ht : t = overviewHeadingPiece ∨ t = detailsHeadingPiece ∨ t = presetsHeadingPiece) :
    t ∉ visitPieces layer := by
  have th1 : t.data[1]? = some 'h' := by rcases ht with rfl | rfl | rfl <;> decide
  intro hmem
  unfold visitPieces at hmem
  rcases mem_ite_singleton.mp hmem with ⟨_, h1⟩
  exact absurd h1.symm (append_ne_lit _ _ _ 1 (by decide) (by rw [th1]; decide))

/-- C5: a layer with no settings and no presets produces a document with
no settings-overview, settings-details, or presets section: the export
reduces to shell, title, properties and footer pieces, and none of the
three section headings occurs among the emitted pieces (for layer keys
that do not themselves spell a section heading). -/
theorem C5_empty_layer_omits_sections :
    ∀ layer : Layer, layer.settings = [] → layer.presets = [] →
    layer.key ++ "\n" ≠ overviewHeadingPiece →
    layer.key ++ "\n" ≠ detailsHeadingPiece →
    layer.key ++ "\n" ≠ presetsHeadingPiece →
    ExportHtmlPieces layer = some (exportStylePieces ++ exportTitlePieces layer
      ++ layerPropertiesPieces layer ++ visitPieces layer
      ++ ["</body>\n", "</html>\n"]) ∧
    (∀ ps, ExportHtmlPieces layer = some ps →
      overviewHeadingPiece ∉ ps ∧ detailsHeadingPiece ∉ ps ∧
        presetsHeadingPiece ∉ ps) := by
  intro layer hset hpre hk1 hk2 hk3
  have hmain : ExportHtmlPieces layer = some (exportStylePieces
      ++ exportTitlePieces layer ++ layerPropertiesPieces layer
      ++ visitPieces layer ++ ["</body>\n", "</html>\n"]) := by
    simp [ExportHtmlPieces, presetsSectionPieces, settingsSectionPieces, hset, hpre]
  refine ⟨hmain, ?_⟩
  intro ps hps
  rw [hmain] at hps
  have hps2 : ps = exportStylePieces ++ exportTitlePieces layer
      ++ layerPropertiesPieces layer ++ visitPieces layer
      ++ ["</body>\n", "</html>\n"] := by
    exact (Option.some.injEq _ _).mp hps.symm
  subst hps2
  refine ⟨?_, ?_, ?_⟩
  · intro hmem
    simp only [List.mem_append] at hmem
    rcases hmem with (((h | h) | h) | h) | h
    · exact absurd h (by decide)
    · exact sectionHeading_not_mem_title layer _ (Or.inl rfl) hk1 h
    · exact sectionHeading_not_mem_props layer _ (Or.inl rfl) h
    · exact sectionHeading_not_mem_visit layer _ (Or.inl rfl) h
    · exact absurd h (by decide)
  · intro hmem
    simp only [List.mem_append] at hmem
    rcases hmem with (((h | h) | h) | h) | h
    · exact absurd h (by decide)
    · exact sectionHeading_not_mem_title layer _ (Or.inr (Or.inl rfl)) hk2 h
    · exact sectionHeading_not_mem_props layer _ (Or.inr (Or.inl rfl)) h
    · exact sectionHeading_not_mem_visit layer _ (Or.inr (Or.inl rfl)) h
    · exact absurd h (by decide)
  · intro hmem
    simp only [List.mem_append] at hmem
    rcases hmem with (((h | h) | h) | h) | h
    · exact absurd h (by decide)
    · exact sectionHeading_not_mem_title layer _ (Or.inr (Or.inr rfl)) hk3 h
    · exact sectionHeading_not_mem_props layer _ (Or.inr (Or.inr rfl)) h
    · exact sectionHeading_not_mem_visit layer _ (Or.inr (Or.inr rfl)) h
    · exact absurd h (by decide)

theorem C5_witness :
    ExportHtmlPieces sampleLayer = some (exportStylePieces
      ++ exportTitlePieces sampleLayer ++ layerPropertiesPieces sampleLayer
      ++ visitPieces sampleLayer ++ ["</body>\n", "</html>\n"]) ∧
    (∀ ps, ExportHtmlPieces sampleLayer = some ps →
      overviewHeadingPiece ∉ ps ∧ detailsHeadingPiece ∉ ps ∧
        presetsHeadingPiece ∉ ps) :=
  C5_empty_layer_omits_sections sampleLayer rfl rfl (by decide) (by decide) (by decide)

theorem presetEntryLine_some (layer : Layer) (d : SettingData)
    (h1 : ∃ m, FindSettingMeta layer.settings d.key = some m)
    (h2 : ∀ v : Int, d.payload = SettingDataPayload.floatD v →
      ∃ q, FindSettingMetaFloat layer.settings d.key = some q) :
    ∃ m v, FindSettingMeta layer.settings d.key = some m ∧
      GetProcessedValue layer d = some v ∧
      presetEntryLine layer d = some
        ("\t<li><a href=\"#" ++ (m.key ++ ("-detailed\">" ++ (m.label ++
          ("</a>: <span class=\"code\">" ++ (v ++ "</span></li>\n")))))) := by
  rcases h1 with ⟨m, hm⟩
  have hv : (GetProcessedValue layer d).isSome = true := by
    cases hp : d.payload
    case floatD v =>
      rcases h2 v hp with ⟨⟨dv, lo, hi, dec⟩, hq⟩
      by_cases hval : floatIsValid lo hi v = true
      · simp [GetProcessedValue, hp, hq, hval]
      · simp [GetProcessedValue, hp, hq, hval]
    all_goals simp [GetProcessedValue, hp]
  rcases Option.isSome_iff_exists.mp hv with ⟨v, hvv⟩
  exact ⟨m, v, hm, hvv, by simp [presetEntryLine, hm, hvv]⟩

theorem presetEntryLines_some (layer : Layer) : ∀ ds : List SettingData,
    (∀ d ∈ ds, (∃ m, FindSettingMeta layer.settings d.key = some m) ∧
      (∀ v : Int, d.payload = SettingDataPayload.floatD v →
        ∃ q, FindSettingMetaFloat layer.settings d.key = some q)) →
    (presetEntryLines layer ds).isSome = true := by
  intro ds
  induction ds with
  | nil => intro _; rfl
  | cons d rest ih =>
    intro h
    rcases presetEntryLine_some layer d (h d (List.mem_cons_self d rest)).1
      (h d (List.mem_cons_self d rest)).2 with ⟨m, v, _, _, hline⟩
    rcases Option.isSome_iff_exists.mp
      (ih (fun x hx => h x (List.mem_cons_of_mem _ hx))) with ⟨s, hs⟩
    simp [presetEntryLines, hline, hs]

theorem presetBlocks_some (layer : Layer) : ∀ ps : List LayerPreset,
    (∀ p ∈ ps, ∀ d ∈ p.settings,
      (∃ m, FindSettingMeta layer.settings d.key = some m) ∧
      (∀ v : Int, d.payload = SettingDataPayload.floatD v →
        ∃ q, FindSettingMetaFloat layer.settings d.key = some q)) →
    (presetBlocks layer ps).isSome = true := by
  intro ps
  induction ps with
  | nil => intro _; rfl
  | cons p rest ih =>
    intro h
    rcases Option.isSome_iff_exists.mp (presetEntryLines_some layer p.settings
      (h p (List.mem_cons_self p rest))) with ⟨e, he⟩
    rcases Option.isSome_iff_exists.mp
      (ih (fun x hx => h x (List.mem_cons_of_mem _ hx))) with ⟨s, hs⟩
    simp [presetBlocks, presetBlock, he, hs]

/-- C9: when every preset setting-data key resolves in the layer's meta
tree (with a float-typed meta for float-typed data, ruling out the
downcast the source performs unchecked), preset rendering never reaches
the missing-lookup branch: the whole presets section and the whole
export render, and every entry renders the found meta's anchor and label
with the data-variant formatted value. -/
theorem C9_presets_resolve_safely :
    ∀ layer : Layer,
    (∀ p ∈ layer.presets, ∀ d ∈ p.settings,
      (∃ m, FindSettingMeta layer.settings d.key = some m) ∧
      (∀ v : Int, d.payload = SettingDataPayload.floatD v →
        ∃ q, FindSettingMetaFloat layer.settings d.key = some q)) →
    (∃ s, presetBlocks layer layer.presets = some s) ∧
    (∃ ps, ExportHtmlPieces layer = some ps) ∧
    (∀ p ∈ layer.presets, ∀ d ∈ p.settings, ∃ m v,
      FindSettingMeta layer.settings d.key = some m ∧
      GetProcessedValue layer d = some v ∧
      presetEntryLine layer d = some
        ("\t<li><a href=\"#" ++ (m.key ++ ("-detailed\">" ++ (m.label ++
          ("</a>: <span class=\"code\">" ++ (v ++ "</span></li>\n"))))))) := by
  intro layer h
  rcases Option.isSome_iff_exists.mp (presetBlocks_some layer layer.presets h)
    with ⟨s, hs⟩
  refine ⟨⟨s, hs⟩, ?_, ?_⟩
  · have hsome : (ExportHtmlPieces layer).isSome = true := by
      by_cases hp : layer.presets.isEmpty
      · simp [ExportHtmlPieces, presetsSectionPieces, hp]
      · simp [ExportHtmlPieces, presetsSectionPieces, hp, hs]
    exact Option.isSome_iff_exists.mp hsome
  · intro p hp d hd
    exact presetEntryLine_some layer d (h p hp d hd).1 (h p hp d hd).2

def c9Meta : SettingMeta :=
  SettingMeta.mk "b" "B" "" "" (SettingMetaPayload.boolM true)
    SettingView.STANDARD StatusType.STABLE 0 []

def c9Preset : LayerPreset :=
  ⟨"P", "D", [⟨"b", SettingDataPayload.boolD false⟩]⟩

def c9Layer : Layer := { sampleLayer with settings := [c9Meta], presets := [c9Preset] }

theorem C9_witness :
    (∃ s, presetBlocks c9Layer c9Layer.presets = some s) ∧
    (∃ ps, ExportHtmlPieces c9Layer = some ps) :=
  ⟨(C9_presets_resolve_safely c9Layer (by
      intro p hp d hd
      have hpp : p = c9Preset := by
        simp [c9Layer, sampleLayer] at hp
        exact hp
      subst hpp
      have hdd : d = (⟨"b", SettingDataPayload.boolD false⟩ : SettingData) := by
        simp [c9Preset] at hd
        exact hd
      subst hdd
      refine ⟨⟨c9Meta, ?_⟩, ?_⟩
      · simp [FindSettingMeta, c9Layer, sampleLayer, c9Meta, SettingMeta.key]
      · intro v hv
        simp at hv)).1,
   (C9_presets_resolve_safely c9Layer (by
      intro p hp d hd
      have hpp : p = c9Preset := by
        simp [c9Layer, sampleLayer] at hp
        exact hp
      subst hpp
      have hdd : d = (⟨"b", SettingDataPayload.boolD false⟩ : SettingData) := by
        simp [c9Preset] at hd
        exact hd
      subst hdd
      refine ⟨⟨c9Meta, ?_⟩, ?_⟩
      · simp [FindSettingMeta, c9Layer, sampleLayer, c9Meta, SettingMeta.key]
      · intro v hv
        simp at hv)).2.1⟩
